import Mathlib

/-!
Verification of the streaming speech-segmentation engine in
`src/asr/asr_with_vad.py` (class `VoiceRecognitionVAD`).

The engine consumes audio frames annotated with a voice-activity flag and
produces utterances bounded by silence.  We embed the per-frame state
machine shallowly:

* a frame is an opaque value of a type `α` (the numpy arrays of the source
  are never inspected by the control logic, only stored and concatenated);
* the Python `queue.Queue` used as pre-activation buffer is a `List α`
  together with its `maxsize`; Python's `Queue.full()` returns
  `0 < maxsize <= qsize()`, so `maxsize = 0` means an unbounded queue;
* the transcription collaborator (`self.transcribe`, wrapped by `asr`) is a
  parameter `transcribe : List α → Option String`: it receives the
  accumulated frame list (the source concatenates the frames before the
  call; the concatenation itself belongs to the external collaborator's
  input format and carries the same frame sequence) and returns either a
  text or `none` (Python `None`); the source tests the result for
  truthiness (`if detected_text:`), under which both `None` and the empty
  string are falsy;
* I/O calls of the source (`input_stream.stop()`, logging) have no effect
  on the engine state and are omitted.
-/

namespace SunMagic

/-- Module-level constants of the source file. -/
def SAMPLE_RATE : Nat := 16000

/-- Milliseconds of audio per frame fed to the engine (one VAD window). -/
def VAD_SIZE : Nat := 50

/-- Milliseconds of lookback buffer kept before activation. -/
def BUFFER_SIZE : Nat := 600

/-- Milliseconds of pause allowed before the recorded audio is processed. -/
def PAUSE_LIMIT : Nat := 800

/-- The configuration the engine actually consumes: the buffer capacity in
frames (`maxsize` of the Python queue) and the pause limit in frames.  The
source derives both by integer floor division from millisecond constants. -/
structure Config where
  maxsize : Nat
  pauseFrames : Nat
deriving Repr, DecidableEq

/-- Derivation of the engine configuration from the millisecond options, as
the source computes it: `BUFFER_SIZE // VAD_SIZE` for the queue size and
`PAUSE_LIMIT // VAD_SIZE` for the pause threshold (integer floor division). -/
def configOf (frameMs bufferMs pauseMs : Nat) : Config :=
  { maxsize := bufferMs / frameMs, pauseFrames := pauseMs / frameMs }

/-- The configuration of the source constants: capacity 12, pause 16. -/
def sourceConfig : Config := configOf VAD_SIZE BUFFER_SIZE PAUSE_LIMIT

/-- The mutable fields of `VoiceRecognitionVAD` that the segmentation logic
reads and writes: `self.recording_started`, `self.samples` (the utterance
accumulator), `self.gap_counter`, and `self.buffer` (the pre-activation
queue, oldest frame first). -/
structure EngineState (α : Type) where
  recording_started : Bool
  samples : List α
  gap_counter : Nat
  buffer : List α
deriving Repr, DecidableEq

/-- The state set up by `__init__`: not recording, empty accumulator, zero
gap counter, empty buffer. -/
def initState (α : Type) : EngineState α :=
  { recording_started := false, samples := [], gap_counter := 0, buffer := [] }

/-- Python `queue.Queue.full()`: `0 < maxsize <= qsize()`.  In particular a
queue with `maxsize = 0` is never full (it is unbounded). -/
def bufferFull (maxsize : Nat) (buf : List α) : Bool :=
  decide (0 < maxsize) && decide (maxsize ≤ buf.length)

/-- The buffer step of `_manage_pre_activation_buffer`: if the queue is
full, `get()` discards the oldest element (the head), then `put(sample)`
appends the new frame at the back. -/
def bufferInsert (maxsize : Nat) (buf : List α) (x : α) : List α :=
  (if bufferFull maxsize buf then buf.tail else buf) ++ [x]

/-- The dictionary returned from `process_detected_audio` on success:
`{"name": detected_speaker, "content": detected_text, 'type': 'text'}`. -/
structure Result where
  name : String
  content : String
  rtype : String
deriving Repr, DecidableEq

/-- `IdentifySpeaker.identify_speaker`: always returns the constant
`"GoldRoger"` regardless of the audio clip. -/
def identify_speaker (_samples : List α) : String := "GoldRoger"

/-- `process_detected_audio`: identifies the speaker, transcribes
`self.samples` via `asr`, and returns the result dictionary when the
detected text is truthy, `None` otherwise.  The commented-out
`self.reset()` of the source is (deliberately) never executed, so the
engine state is returned unchanged. -/
def process_detected_audio (transcribe : List α → Option String)
    (s : EngineState α) : EngineState α × Option Result :=
  match transcribe s.samples with
  | some t =>
      if t = "" then (s, none)
      else (s, some { name := identify_speaker s.samples, content := t, rtype := "text" })
  | none => (s, none)

/-- `_process_activated_audio`: append the frame to the accumulator; on an
inactive frame increment the gap counter and, once it reaches
`PAUSE_LIMIT // VAD_SIZE`, hand the accumulator to
`process_detected_audio`; on an active frame reset the gap counter. -/
def process_activated_audio (cfg : Config) (transcribe : List α → Option String)
    (s : EngineState α) (sample : α) (vad_confidence : Bool) :
    EngineState α × Option Result :=
  let s1 : EngineState α := { s with samples := s.samples ++ [sample] }
  if !vad_confidence then
    let s2 : EngineState α := { s1 with gap_counter := s1.gap_counter + 1 }
    if cfg.pauseFrames ≤ s2.gap_counter then
      process_detected_audio transcribe s2
    else
      (s2, none)
  else
    ({ s1 with gap_counter := 0 }, none)

/-- `_manage_pre_activation_buffer`: insert the frame into the queue
(evicting the oldest when full); on voice activity snapshot the queue
contents into `self.samples` and start recording. -/
def manage_pre_activation_buffer (cfg : Config) (s : EngineState α)
    (sample : α) (vad_confidence : Bool) : EngineState α :=
  let buf := bufferInsert cfg.maxsize s.buffer sample
  if vad_confidence then
    { s with buffer := buf, samples := buf, recording_started := true }
  else
    { s with buffer := buf }

/-- `_handle_audio_sample` — the per-frame entry point (the spec's
`submit_frame`): dispatch on `self.recording_started`; the idle branch
returns `None` (no explicit return in the source). -/
def handle_audio_sample (cfg : Config) (transcribe : List α → Option String)
    (s : EngineState α) (sample : α) (vad_confidence : Bool) :
    EngineState α × Option Result :=
  if !s.recording_started then
    (manage_pre_activation_buffer cfg s sample vad_confidence, none)
  else
    process_activated_audio cfg transcribe s sample vad_confidence

/-- `reset`: unconditionally clears the recording flag, the accumulator,
the gap counter and the buffer.  The Python method returns `None`, so it
never emits an utterance. -/
def reset (s : EngineState α) : EngineState α :=
  { s with recording_started := false, samples := [], gap_counter := 0, buffer := [] }

/-- Feeding a list of `(frame, vad_confidence)` pairs through
`_handle_audio_sample` one by one, collecting the per-frame return values
(state transitions do not depend on the returned values, matching the
source where `process_detected_audio` performs no state mutation). -/
def runOutputs (cfg : Config) (transcribe : List α → Option String) :
    EngineState α → List (α × Bool) → EngineState α × List (Option Result)
  | s, [] => (s, [])
  | s, fb :: rest =>
      let step := handle_audio_sample cfg transcribe s fb.1 fb.2
      let next := runOutputs cfg transcribe step.1 rest
      (next.1, step.2 :: next.2)

/-- The state reached after feeding a list of frames (same state evolution
as `runOutputs`, without collecting the outputs). -/
def runState (cfg : Config) (transcribe : List α → Option String) :
    EngineState α → List (α × Bool) → EngineState α
  | s, [] => s
  | s, fb :: rest =>
      runState cfg transcribe (handle_audio_sample cfg transcribe s fb.1 fb.2).1 rest

/-- `_listen_and_respond`, driven by a finite frame queue: pull frames in
order and return the first truthy result of `_handle_audio_sample` (a
returned dictionary is always truthy; `None` is falsy, so the loop keeps
consuming).  When the supplied frames are exhausted without a result we
return `none` (in the source the loop would block on the queue). -/
def listen_and_respond (cfg : Config) (transcribe : List α → Option String) :
    EngineState α → List (α × Bool) → EngineState α × Option Result
  | s, [] => (s, none)
  | s, fb :: rest =>
      let step := handle_audio_sample cfg transcribe s fb.1 fb.2
      match step.2 with
      | some r => (step.1, some r)
      | none => listen_and_respond cfg transcribe step.1 rest

/-- `start_listening`: run `_listen_and_respond`, then `reset`, then return
the heard result. -/
def start_listening (cfg : Config) (transcribe : List α → Option String)
    (inputs : List (α × Bool)) : EngineState α × Option Result :=
  let run := listen_and_respond cfg transcribe (initState α) inputs
  (reset run.1, run.2)

/-- External operations that drive the engine: a frame submission or an
explicit `reset()` call. -/
inductive Op (α : Type) where
  | frame (sample : α) (vad : Bool)
  | doReset
deriving Repr, DecidableEq

/-- Running a list of operations from a given state. -/
def runOps (cfg : Config) (transcribe : List α → Option String) :
    EngineState α → List (Op α) → EngineState α
  | s, [] => s
  | s, Op.frame f b :: rest =>
      runOps cfg transcribe (handle_audio_sample cfg transcribe s f b).1 rest
  | s, Op.doReset :: rest => runOps cfg transcribe (reset s) rest

/-- A state is reachable when some sequence of frame submissions and reset
calls produces it from the freshly-initialized engine. -/
def Reachable (cfg : Config) (transcribe : List α → Option String)
    (s : EngineState α) : Prop :=
  ∃ ops : List (Op α), runOps cfg transcribe (initState α) ops = s

/-- Tagging each frame of a list as inactive. -/
def inactiveList (l : List α) : List (α × Bool) :=
  l.map fun x => (x, false)

/-- The sequence of `n` inactive frames `f 1, …, f n`. -/
def inactiveInputs (f : Nat → α) (n : Nat) : List (α × Bool) :=
  inactiveList ((List.range n).map fun i => f (i + 1))

/-- A state is idle exactly when the gap counter is zero; this holds for
every reachable idle state (the engine only re-enters the idle state
through `__init__` or `reset`, both of which zero the counter). -/
def IdleGapZero (s : EngineState α) : Prop :=
  s.recording_started = false → s.gap_counter = 0

/-- A transcriber used in concrete runs: reports how many frames it was
handed (always truthy). -/
def tLen : List Nat → Option String := fun l => some (toString l.length)

/-- A transcriber used in concrete runs: constant truthy text. -/
def tOk : List Nat → Option String := fun _ => some "ok"

/-- A transcriber used in concrete runs: always returns the empty (falsy)
string. -/
def tEmpty : List Nat → Option String := fun _ => some ""

/-- The frame sequence of the spec's concrete scenario: 5 inactive frames,
3 active frames, 4 inactive frames, numbered 1 to 12. -/
def c4input : List (Nat × Bool) :=
  [(1, false), (2, false), (3, false), (4, false), (5, false),
   (6, true), (7, true), (8, true),
   (9, false), (10, false), (11, false), (12, false)]

/-- Running the concrete scenario with frame duration 50 ms, buffer 200 ms
(capacity 4 frames) and pause limit 200 ms (threshold 4 frames). -/
def c4run : EngineState Nat × List (Option Result) :=
  runOutputs (configOf 50 200 200) tLen (initState Nat) c4input

/-! ### Helper lemmas about the buffer queue -/

theorem bufferFull_nil (C : Nat) : bufferFull C ([] : List α) = false := by
  simp [bufferFull]
  omega

theorem bufferInsert_nil (C : Nat) (x : α) : bufferInsert C [] x = [x] := by
  simp [bufferInsert, bufferFull_nil]

theorem bufferInsert_zero (b : List α) (x : α) : bufferInsert 0 b x = b ++ [x] := by
  simp [bufferInsert, bufferFull]

theorem bufferInsert_length_le (C : Nat) (hC : 0 < C) (b : List α) (x : α)
    (h : b.length ≤ C) : (bufferInsert C b x).length ≤ C := by
  unfold bufferInsert bufferFull
  by_cases hfull : C ≤ b.length
  · simp [hC, hfull]
    omega
  · simp [hfull]
    omega

theorem foldl_bufferInsert_zero :
    ∀ (l b : List α), l.foldl (bufferInsert 0) b = b ++ l := by
  intro l
  induction l with
  | nil => intro b; simp
  | cons x l ih =>
      intro b
      rw [List.foldl_cons, bufferInsert_zero, ih]
      simp

theorem foldl_bufferInsert_drop (C : Nat) (hC : 0 < C) :
    ∀ (l b : List α), b.length ≤ C →
      l.foldl (bufferInsert C) b = (b ++ l).drop (b.length + l.length - C) := by
  intro l
  induction l with
  | nil =>
      intro b hb
      simp [Nat.sub_eq_zero_of_le hb]
  | cons x l ih =>
      intro b hb
      rw [List.foldl_cons, ih (bufferInsert C b x) (bufferInsert_length_le C hC b x hb)]
      by_cases hfull : C ≤ b.length
      · have hb' : b.length = C := Nat.le_antisymm hb hfull
        cases b with
        | nil =>
            exfalso
            simp at hb'
            omega
        | cons a tb =>
            have hfl : bufferFull C (a :: tb) = true := by
              unfold bufferFull
              simp only [Bool.and_eq_true, decide_eq_true_eq]
              exact ⟨hC, hfull⟩
            have hins : bufferInsert C (a :: tb) x = tb ++ [x] := by
              unfold bufferInsert
              rw [hfl]
              rfl
            rw [hins]
            have hidx1 : (tb ++ [x]).length + l.length - C = l.length := by
              simp at hb' ⊢
              omega
            have hidx2 : (a :: tb).length + (x :: l).length - C = l.length + 1 := by
              simp at hb' ⊢
              omega
            rw [hidx1, hidx2]
            simp [List.drop_succ_cons]
      · have hfl : bufferFull C b = false := by
          unfold bufferFull
          simp only [Bool.and_eq_false_iff, decide_eq_false_iff_not]
          omega
        have hins : bufferInsert C b x = b ++ [x] := by
          unfold bufferInsert
          rw [hfl]
          rfl
        rw [hins]
        have hL : b ++ [x] ++ l = b ++ x :: l := by simp
        rw [hL]
        congr 1
        simp
        omega

/-! ### Helper lemmas about single steps of the engine -/

theorem process_detected_fst (transcribe : List α → Option String)
    (s : EngineState α) : (process_detected_audio transcribe s).1 = s := by
  unfold process_detected_audio
  cases transcribe s.samples with
  | none => rfl
  | some t =>
      dsimp
      split <;> rfl

theorem process_activated_fst_samples (cfg : Config)
    (transcribe : List α → Option String) (s : EngineState α) (x : α) (b : Bool) :
    (process_activated_audio cfg transcribe s x b).1.samples = s.samples ++ [x] := by
  unfold process_activated_audio
  by_cases hb : b = true
  · simp [hb]
  · simp only [Bool.not_eq_true] at hb
    subst hb
    dsimp
    split
    · rw [process_detected_fst]
    · rfl

theorem process_activated_fst_recording (cfg : Config)
    (transcribe : List α → Option String) (s : EngineState α) (x : α) (b : Bool) :
    (process_activated_audio cfg transcribe s x b).1.recording_started
      = s.recording_started := by
  unfold process_activated_audio
  by_cases hb : b = true
  · simp [hb]
  · simp only [Bool.not_eq_true] at hb
    subst hb
    dsimp
    split
    · rw [process_detected_fst]
    · rfl

theorem process_activated_fst_buffer (cfg : Config)
    (transcribe : List α → Option String) (s : EngineState α) (x : α) (b : Bool) :
    (process_activated_audio cfg transcribe s x b).1.buffer = s.buffer := by
  unfold process_activated_audio
  by_cases hb : b = true
  · simp [hb]
  · simp only [Bool.not_eq_true] at hb
    subst hb
    dsimp
    split
    · rw [process_detected_fst]
    · rfl

theorem handle_idle (cfg : Config) (transcribe : List α → Option String)
    (s : EngineState α) (x : α) (b : Bool) (h : s.recording_started = false) :
    handle_audio_sample cfg transcribe s x b
      = (manage_pre_activation_buffer cfg s x b, none) := by
  simp [handle_audio_sample, h]

theorem handle_recording (cfg : Config) (transcribe : List α → Option String)
    (s : EngineState α) (x : α) (b : Bool) (h : s.recording_started = true) :
    handle_audio_sample cfg transcribe s x b
      = process_activated_audio cfg transcribe s x b := by
  simp [handle_audio_sample, h]

theorem reset_eq_init (s : EngineState α) : reset s = initState α := rfl

/-! ### Helper lemmas about runs of the engine -/

theorem inactiveList_cons (x : α) (l : List α) :
    inactiveList (x :: l) = (x, false) :: inactiveList l := rfl

theorem runState_inactiveList (cfg : Config) (transcribe : List α → Option String) :
    ∀ (l : List α) (s : EngineState α), s.recording_started = false →
      runState cfg transcribe s (inactiveList l)
        = { s with buffer := l.foldl (bufferInsert cfg.maxsize) s.buffer } := by
  intro l
  induction l with
  | nil => intro s _; rfl
  | cons x l ih =>
      intro s hs
      rw [inactiveList_cons]
      show runState cfg transcribe
        (handle_audio_sample cfg transcribe s x false).1 (inactiveList l) = _
      rw [handle_idle cfg transcribe s x false hs]
      have hmg : manage_pre_activation_buffer cfg s x false
          = { s with buffer := bufferInsert cfg.maxsize s.buffer x } := by
        simp [manage_pre_activation_buffer]
      rw [hmg, ih _ (by exact hs)]
      rfl

theorem runState_append (cfg : Config) (transcribe : List α → Option String) :
    ∀ (l₁ l₂ : List (α × Bool)) (s : EngineState α),
      runState cfg transcribe s (l₁ ++ l₂)
        = runState cfg transcribe (runState cfg transcribe s l₁) l₂ := by
  intro l₁
  induction l₁ with
  | nil => intro l₂ s; rfl
  | cons fb l₁ ih => intro l₂ s; exact ih l₂ _

theorem listen_cons (cfg : Config) (transcribe : List α → Option String)
    (s : EngineState α) (fb : α × Bool) (rest : List (α × Bool)) :
    listen_and_respond cfg transcribe s (fb :: rest)
      = match (handle_audio_sample cfg transcribe s fb.1 fb.2).2 with
        | some r => ((handle_audio_sample cfg transcribe s fb.1 fb.2).1, some r)
        | none =>
            listen_and_respond cfg transcribe
              (handle_audio_sample cfg transcribe s fb.1 fb.2).1 rest := rfl

theorem listen_inactiveList_idle (cfg : Config) (transcribe : List α → Option String) :
    ∀ (l : List α) (s : EngineState α) (m : List (α × Bool)),
      s.recording_started = false →
      listen_and_respond cfg transcribe s (inactiveList l ++ m)
        = listen_and_respond cfg transcribe
            (runState cfg transcribe s (inactiveList l)) m := by
  intro l
  induction l with
  | nil => intro s m _; rfl
  | cons x l ih =>
      intro s m hs
      rw [inactiveList_cons, List.cons_append, listen_cons]
      rw [handle_idle cfg transcribe s x false hs]
      show listen_and_respond cfg transcribe
          (manage_pre_activation_buffer cfg s x false) (inactiveList l ++ m) = _
      have hmg : manage_pre_activation_buffer cfg s x false
          = { s with buffer := bufferInsert cfg.maxsize s.buffer x } := by
        simp [manage_pre_activation_buffer]
      rw [hmg, ih _ m (by exact hs)]
      show _ = listen_and_respond cfg transcribe
        (runState cfg transcribe
          (handle_audio_sample cfg transcribe s x false).1 (inactiveList l)) m
      rw [handle_idle cfg transcribe s x false hs, hmg]

theorem head?_append_left (l l' : List α) (h : l ≠ []) :
    (l ++ l').head? = l.head? := by
  cases l with
  | nil => exact absurd rfl h
  | cons a t => rfl

theorem listen_recording_head (cfg : Config) (transcribe : List α → Option String) :
    ∀ (m : List (α × Bool)) (s : EngineState α),
      s.recording_started = true → s.samples ≠ [] →
      (listen_and_respond cfg transcribe s m).1.samples.head? = s.samples.head? := by
  intro m
  induction m with
  | nil => intro s _ _; rfl
  | cons fb rest ih =>
      intro s hrec hne
      rw [listen_cons]
      have hstep1 : (handle_audio_sample cfg transcribe s fb.1 fb.2).1.samples
          = s.samples ++ [fb.1] := by
        rw [handle_recording cfg transcribe s fb.1 fb.2 hrec]
        exact process_activated_fst_samples cfg transcribe s fb.1 fb.2
      have hstep2 : (handle_audio_sample cfg transcribe s fb.1 fb.2).1.recording_started
          = true := by
        rw [handle_recording cfg transcribe s fb.1 fb.2 hrec]
        rw [process_activated_fst_recording cfg transcribe s fb.1 fb.2]
        exact hrec
      have hhead : (handle_audio_sample cfg transcribe s fb.1 fb.2).1.samples.head?
          = s.samples.head? := by
        rw [hstep1]
        exact head?_append_left s.samples [fb.1] hne
      cases hout : (handle_audio_sample cfg transcribe s fb.1 fb.2).2 with
      | some r =>
          dsimp
          exact hhead
      | none =>
          dsimp
          rw [ih _ hstep2 (by rw [hstep1]; simp)]
          exact hhead

/-! ### Characterization of the recording-state branches -/

theorem process_activated_active (cfg : Config) (transcribe : List α → Option String)
    (s : EngineState α) (x : α) :
    process_activated_audio cfg transcribe s x true
      = ({ s with samples := s.samples ++ [x], gap_counter := 0 }, none) := by
  unfold process_activated_audio
  simp

theorem process_activated_inactive_low (cfg : Config)
    (transcribe : List α → Option String) (s : EngineState α) (x : α)
    (hth : ¬ cfg.pauseFrames ≤ s.gap_counter + 1) :
    process_activated_audio cfg transcribe s x false
      = ({ s with samples := s.samples ++ [x], gap_counter := s.gap_counter + 1 },
         none) := by
  unfold process_activated_audio
  simp [hth]

theorem process_activated_inactive_fire (cfg : Config)
    (transcribe : List α → Option String) (s : EngineState α) (x : α)
    (hth : cfg.pauseFrames ≤ s.gap_counter + 1) :
    process_activated_audio cfg transcribe s x false
      = process_detected_audio transcribe
          { s with samples := s.samples ++ [x], gap_counter := s.gap_counter + 1 } := by
  unfold process_activated_audio
  simp [hth]

theorem process_detected_truthy (transcribe : List α → Option String)
    (s : EngineState α) (t : String) (htr : transcribe s.samples = some t)
    (hne : t ≠ "") :
    process_detected_audio transcribe s
      = (s, some { name := "GoldRoger", content := t, rtype := "text" }) := by
  unfold process_detected_audio
  rw [htr]
  simp [hne, identify_speaker]

theorem process_detected_falsy (transcribe : List α → Option String)
    (s : EngineState α)
    (hf : transcribe s.samples = none ∨ transcribe s.samples = some "") :
    process_detected_audio transcribe s = (s, none) := by
  unfold process_detected_audio
  cases hf with
  | inl h => rw [h]
  | inr h => rw [h]; simp

theorem listen_recording_inactive_isSome (cfg : Config)
    (transcribe : List α → Option String)
    (ht : ∀ ls : List α, ∃ t, transcribe ls = some t ∧ t ≠ "") :
    ∀ (l : List α) (s : EngineState α), s.recording_started = true →
      ((listen_and_respond cfg transcribe s (inactiveList l)).2).isSome
        = decide (1 ≤ l.length ∧ cfg.pauseFrames ≤ s.gap_counter + l.length) := by
  intro l
  induction l with
  | nil =>
      intro s _
      simp [inactiveList, listen_and_respond]
  | cons x l ih =>
      intro s hrec
      rw [inactiveList_cons, listen_cons]
      rw [handle_recording cfg transcribe s x false hrec]
      by_cases hth : cfg.pauseFrames ≤ s.gap_counter + 1
      · obtain ⟨t, htr, hne⟩ := ht (s.samples ++ [x])
        rw [process_activated_inactive_fire cfg transcribe s x hth,
          process_detected_truthy transcribe _ t (by exact htr) hne]
        dsimp
        rw [eq_comm, decide_eq_true_iff]
        omega
      · rw [process_activated_inactive_low cfg transcribe s x hth]
        dsimp
        rw [ih _ (by exact hrec)]
        rw [decide_eq_decide]
        simp only [List.length_cons]
        omega

theorem manage_active (cfg : Config) (s : EngineState α) (x : α) :
    manage_pre_activation_buffer cfg s x true
      = { s with buffer := bufferInsert cfg.maxsize s.buffer x,
                 samples := bufferInsert cfg.maxsize s.buffer x,
                 recording_started := true } := by
  simp [manage_pre_activation_buffer]

theorem head?_drop_range_map (g : Nat → α) (m n : Nat) (h : n < m) :
    (((List.range m).map g).drop n).head? = some (g n) := by
  have hlen : n < ((List.range m).map g).length := by simpa using h
  rw [List.drop_eq_getElem_cons hlen]
  simp

/-! ### Invariants of reachable states -/

theorem runOps_preserves (cfg : Config) (transcribe : List α → Option String)
    (P : EngineState α → Prop)
    (hhandle : ∀ s x b, P s → P (handle_audio_sample cfg transcribe s x b).1)
    (hreset : ∀ s, P s → P (reset s)) :
    ∀ (ops : List (Op α)) (s : EngineState α), P s →
      P (runOps cfg transcribe s ops) := by
  intro ops
  induction ops with
  | nil => intro s hs; exact hs
  | cons op rest ih =>
      intro s hs
      cases op with
      | frame f b => exact ih _ (hhandle s f b hs)
      | doReset => exact ih _ (hreset s hs)

theorem reachable_idle_gap_zero (cfg : Config) (transcribe : List α → Option String)
    (s : EngineState α) (h : Reachable cfg transcribe s) : IdleGapZero s := by
  obtain ⟨ops, hops⟩ := h
  rw [← hops]
  apply runOps_preserves cfg transcribe IdleGapZero
  · intro s x b hs
    by_cases hrec : s.recording_started = true
    · intro hcontra
      rw [handle_recording cfg transcribe s x b hrec,
        process_activated_fst_recording cfg transcribe s x b] at hcontra
      rw [hrec] at hcontra
      exact absurd hcontra (by simp)
    · simp only [Bool.not_eq_true] at hrec
      rw [handle_idle cfg transcribe s x b hrec]
      unfold manage_pre_activation_buffer IdleGapZero
      dsimp
      by_cases hb : b = true
      · simp [hb]
      · simp only [Bool.not_eq_true] at hb
        subst hb
        dsimp
        intro _
        exact hs hrec
  · intro s _
    intro _
    rfl
  · intro h
    rfl

theorem reachable_buffer_le (cfg : Config) (transcribe : List α → Option String)
    (hC : 0 < cfg.maxsize) (s : EngineState α) (h : Reachable cfg transcribe s) :
    s.buffer.length ≤ cfg.maxsize := by
  obtain ⟨ops, hops⟩ := h
  rw [← hops]
  apply runOps_preserves cfg transcribe (fun s => s.buffer.length ≤ cfg.maxsize)
  · intro s x b hs
    by_cases hrec : s.recording_started = true
    · rw [handle_recording cfg transcribe s x b hrec,
        process_activated_fst_buffer cfg transcribe s x b]
      exact hs
    · simp only [Bool.not_eq_true] at hrec
      rw [handle_idle cfg transcribe s x b hrec]
      unfold manage_pre_activation_buffer
      dsimp
      by_cases hb : b = true
      · simp only [hb, if_true]
        exact bufferInsert_length_le cfg.maxsize hC s.buffer x hs
      · simp only [Bool.not_eq_true] at hb
        subst hb
        dsimp
        exact bufferInsert_length_le cfg.maxsize hC s.buffer x hs
  · intro s _
    exact Nat.zero_le _
  · exact Nat.zero_le _

/-! ### Claim theorems -/

/-- C9: calling `reset()` in any engine state returns the engine to Idle
with an empty accumulator, a zero gap counter and an empty pre-activation
buffer, and it is idempotent.  The Python `reset` returns `None`, so it
emits no utterance; in the embedding this is reflected by its type, which
produces only a state and no `Result`. -/
theorem reset_idempotent_clears (s : EngineState α) :
    reset s = { recording_started := false, samples := [], gap_counter := 0,
                buffer := ([] : List α) }
    ∧ reset (reset s) = reset s :=
  ⟨rfl, rfl⟩

/-- C6: for every active frame submitted while Recording, whatever the gap
counter value, the call returns no utterance, appends the frame to the
accumulator (dropping nothing), and resets the gap counter to 0. -/
theorem gap_reset_law (cfg : Config) (transcribe : List α → Option String)
    (s : EngineState α) (x : α) (hrec : s.recording_started = true) :
    handle_audio_sample cfg transcribe s x true
      = ({ s with samples := s.samples ++ [x], gap_counter := 0 }, none) := by
  rw [handle_recording cfg transcribe s x true hrec]
  exact process_activated_active cfg transcribe s x

/-- Witness for C6 at a concrete recording state with the gap counter one
frame short of the source's pause limit. -/
theorem gap_reset_law_witness :
    handle_audio_sample (Config.mk 12 16) tOk
        { recording_started := true, samples := [1, 2], gap_counter := 15, buffer := [9] }
        7 true
      = ({ recording_started := true, samples := [1, 2, 7], gap_counter := 0,
           buffer := [9] }, none) :=
  gap_reset_law (Config.mk 12 16) tOk
    { recording_started := true, samples := [1, 2], gap_counter := 15, buffer := [9] }
    7 rfl

/-- C1 is false on the code: `process_detected_audio` never resets (its
reset lines are commented out), so after a finalized utterance the engine
is still Recording, the accumulator holds both frames, the gap counter is
1 and the buffer is untouched; the transcriber saw the un-reset 2-frame
accumulator (content "2" under the length-reporting transcriber). -/
theorem finalize_no_reset_counterexample :
    (runOutputs (Config.mk 1 1) tLen (initState Nat) [(10, true), (20, false)]).2
        = [none, some { name := "GoldRoger", content := "2", rtype := "text" }]
    ∧ (runOutputs (Config.mk 1 1) tLen (initState Nat) [(10, true), (20, false)]).1
        = { recording_started := true, samples := [10, 20], gap_counter := 1,
            buffer := [10] } := by
  constructor <;> rfl

/-- C1 (amended): when the gap counter reaches the pause limit,
`submit_frame` finalizes by invoking transcription on the accumulator
WITHOUT resetting: the post-call state is still Recording, keeps the full
accumulator (with the final inactive frame appended), the incremented gap
counter, and the untouched buffer.  The reset is instead performed by the
caller: `start_listening` calls `reset()` after the listen loop returns,
leaving the freshly-initialized state. -/
theorem finalize_leaves_state_and_caller_resets (cfg : Config)
    (transcribe : List α → Option String) (s : EngineState α) (x : α) (t : String)
    (inputs : List (α × Bool))
    (hrec : s.recording_started = true)
    (hth : cfg.pauseFrames ≤ s.gap_counter + 1)
    (htr : transcribe (s.samples ++ [x]) = some t) (hne : t ≠ "") :
    handle_audio_sample cfg transcribe s x false
      = ({ s with samples := s.samples ++ [x], gap_counter := s.gap_counter + 1 },
         some { name := "GoldRoger", content := t, rtype := "text" })
    ∧ (start_listening cfg transcribe inputs).1 = initState α := by
  constructor
  · rw [handle_recording cfg transcribe s x false hrec,
      process_activated_inactive_fire cfg transcribe s x hth]
    exact process_detected_truthy transcribe
      { s with samples := s.samples ++ [x], gap_counter := s.gap_counter + 1 }
      t (by exact htr) hne
  · show reset (listen_and_respond cfg transcribe (initState α) inputs).1 = initState α
    exact reset_eq_init _

/-- Witness for C1 (amended) at a concrete finalizing call. -/
theorem finalize_leaves_state_witness :
    handle_audio_sample (Config.mk 1 1) tOk
        { recording_started := true, samples := [10], gap_counter := 0, buffer := [10] }
        20 false
      = ({ recording_started := true, samples := [10, 20], gap_counter := 1,
           buffer := [10] },
         some { name := "GoldRoger", content := "ok", rtype := "text" })
    ∧ (start_listening (Config.mk 1 1) tOk []).1 = initState Nat :=
  finalize_leaves_state_and_caller_resets (Config.mk 1 1) tOk
    { recording_started := true, samples := [10], gap_counter := 0, buffer := [10] }
    20 "ok" [] rfl (by decide) rfl (by decide)

/-- C10: when the transcriber returns a falsy text (Python `None` or the
empty string) at a finalize, `_handle_audio_sample` returns nothing, the
listening loop keeps consuming frames, and no reset occurs: the engine
remains Recording with the accumulated frames (plus the final inactive
frame) still in the accumulator. -/
theorem falsy_transcription_keeps_recording (cfg : Config)
    (transcribe : List α → Option String) (s : EngineState α) (x : α)
    (rest : List (α × Bool))
    (hrec : s.recording_started = true)
    (hth : cfg.pauseFrames ≤ s.gap_counter + 1)
    (hfalsy : transcribe (s.samples ++ [x]) = none
      ∨ transcribe (s.samples ++ [x]) = some "") :
    handle_audio_sample cfg transcribe s x false
      = ({ s with samples := s.samples ++ [x], gap_counter := s.gap_counter + 1 },
         none)
    ∧ listen_and_respond cfg transcribe s ((x, false) :: rest)
        = listen_and_respond cfg transcribe
            { s with samples := s.samples ++ [x], gap_counter := s.gap_counter + 1 }
            rest := by
  have hstep : handle_audio_sample cfg transcribe s x false
      = ({ s with samples := s.samples ++ [x], gap_counter := s.gap_counter + 1 },
         none) := by
    rw [handle_recording cfg transcribe s x false hrec,
      process_activated_inactive_fire cfg transcribe s x hth]
    exact process_detected_falsy transcribe _ (by exact hfalsy)
  refine ⟨hstep, ?_⟩
  rw [listen_cons]
  dsimp only
  rw [hstep]

/-- Witness for C10 at a concrete finalizing call whose transcriber
returns the empty string. -/
theorem falsy_transcription_keeps_recording_witness :
    handle_audio_sample (Config.mk 5 1) tEmpty
        { recording_started := true, samples := [1], gap_counter := 0, buffer := [2] }
        3 false
      = ({ recording_started := true, samples := [1, 3], gap_counter := 1,
           buffer := [2] }, none)
    ∧ listen_and_respond (Config.mk 5 1) tEmpty
          { recording_started := true, samples := [1], gap_counter := 0, buffer := [2] }
          [(3, false)]
        = listen_and_respond (Config.mk 5 1) tEmpty
            { recording_started := true, samples := [1, 3], gap_counter := 1,
              buffer := [2] } [] :=
  falsy_transcription_keeps_recording (Config.mk 5 1) tEmpty
    { recording_started := true, samples := [1], gap_counter := 0, buffer := [2] }
    3 [] rfl (by decide) (Or.inr rfl)

/-- C4 is false on the code: in the concrete scenario (capacity 4, pause
threshold 4; 5 inactive, 3 active, 4 inactive frames) exactly one
utterance is emitted, but it contains 10 frames, not 11 — the activation
frame occupies a buffer slot, so only pre-activation frames 3–5 survive.
The length-reporting transcriber received "10" frames. -/
theorem concrete_scenario_counterexample :
    (c4run.2.filterMap id).length = 1
    ∧ c4run.1.samples.length = 10
    ∧ ¬ c4run.1.samples.length = 11 :=
  ⟨rfl, rfl, by decide⟩

/-- C4 (amended): the scenario emits exactly one utterance, on the 4th
consecutive trailing inactive frame (the 12th frame overall), containing
exactly 10 frames: the last 3 pre-activation frames (frames 3–5), the 3
active frames (6–8), and the 4 trailing inactive frames (9–12).  The full
output trace shows eleven frames producing nothing and the 12th producing
the utterance; since finalize does not reset, the accumulator still holds
the emitted utterance. -/
theorem concrete_scenario_ten_frames :
    c4run.2 = List.replicate 11 none
        ++ [some { name := "GoldRoger", content := "10", rtype := "text" }]
    ∧ c4run.1.samples = [3, 4, 5, 6, 7, 8, 9, 10, 11, 12] := by
  constructor <;> rfl

/-- C8 is false on the code: with `maxsize = 0` the Python queue is
unbounded (`full()` is always false), so insertion is NOT a no-op — after
one inactive frame the buffer holds that frame, and the snapshot taken at
activation is non-empty. -/
theorem zero_capacity_counterexample :
    (runState (Config.mk 0 16) tOk (initState Nat) [(5, false)]).buffer = [5]
    ∧ ¬ (runState (Config.mk 0 16) tOk (initState Nat) [(5, false)]).buffer = []
    ∧ (runState (Config.mk 0 16) tOk (initState Nat)
        [(5, false), (6, true)]).samples = [5, 6] :=
  ⟨rfl, by decide, rfl⟩

/-- C8 (amended): with buffer capacity configured to 0 frames,
`submit_frame` never crashes (every operation is total), but insertion is
not a no-op: `queue.Queue` treats `maxsize = 0` as unbounded, so every
frame is retained — after `N` inactive frames the buffer holds all `N`
frames in order, and the snapshot taken at activation contains every frame
submitted since the last reset, including the triggering frame. -/
theorem zero_capacity_unbounded (P : Nat) (transcribe : List α → Option String)
    (f : Nat → α) (N : Nat) :
    (runState (Config.mk 0 P) transcribe (initState α) (inactiveInputs f N)).buffer
      = (List.range N).map (fun i => f (i + 1))
    ∧ (runState (Config.mk 0 P) transcribe (initState α)
          (inactiveInputs f N ++ [(f (N + 1), true)])).samples
      = (List.range (N + 1)).map (fun i => f (i + 1)) := by
  have h1 : runState (Config.mk 0 P) transcribe (initState α) (inactiveInputs f N)
      = { initState α with
          buffer := (List.range N).map (fun i => f (i + 1)) } := by
    unfold inactiveInputs
    rw [runState_inactiveList _ _ _ _ rfl]
    rw [show (initState α).buffer = [] from rfl, foldl_bufferInsert_zero]
    rfl
  constructor
  · rw [h1]
  · rw [runState_append, h1]
    show (handle_audio_sample (Config.mk 0 P) transcribe _ (f (N + 1)) true).1.samples
      = _
    rw [handle_idle _ _ _ _ _ rfl]
    dsimp only
    rw [manage_active]
    dsimp only
    rw [bufferInsert_zero, List.range_succ, List.map_append]
    rfl

/-- C5: with a positive capacity `C`, every reachable state's buffer holds
at most `C` frames (in particular at every point while Idle); inserting
into a full buffer evicts the oldest frame first; and after `N ≥ C`
inactive frames from a fresh engine the buffer holds exactly the most
recent `C` frames in arrival order. -/
theorem idle_buffer_bound_fifo (cfg : Config) (transcribe : List α → Option String)
    (hC : 0 < cfg.maxsize)
    (s : EngineState α) (hreach : Reachable cfg transcribe s)
    (b : List α) (x : α) (hfull : cfg.maxsize ≤ b.length)
    (f : Nat → α) (N : Nat) (hN : cfg.maxsize ≤ N) :
    s.buffer.length ≤ cfg.maxsize
    ∧ bufferInsert cfg.maxsize b x = b.tail ++ [x]
    ∧ (runState cfg transcribe (initState α) (inactiveInputs f N)).buffer
        = (List.range cfg.maxsize).map fun i => f (N - cfg.maxsize + i + 1) := by
  refine ⟨reachable_buffer_le cfg transcribe hC s hreach, ?_, ?_⟩
  · have hfl : bufferFull cfg.maxsize b = true := by
      unfold bufferFull
      simp only [Bool.and_eq_true, decide_eq_true_eq]
      exact ⟨hC, hfull⟩
    unfold bufferInsert
    rw [hfl]
    rfl
  · unfold inactiveInputs
    rw [runState_inactiveList cfg transcribe _ _ rfl]
    dsimp only
    rw [show (initState α).buffer = [] from rfl]
    rw [foldl_bufferInsert_drop cfg.maxsize hC _ [] (by simp)]
    simp only [List.nil_append, List.length_map, List.length_range, List.length_nil,
      Nat.zero_add]
    obtain ⟨k, rfl⟩ : ∃ k, N = k + cfg.maxsize := ⟨N - cfg.maxsize, by omega⟩
    simp only [Nat.add_sub_cancel]
    rw [List.range_add, List.map_append]
    rw [List.drop_left' (by simp)]
    rw [List.map_map]
    rfl

/-- Witness for C5 with capacity 2, the fresh state, a full two-element
buffer, and a run of three inactive frames. -/
theorem idle_buffer_bound_fifo_witness :
    (initState Nat).buffer.length ≤ (Config.mk 2 16).maxsize
    ∧ bufferInsert (Config.mk 2 16).maxsize [1, 2] 9 = [2, 9]
    ∧ (runState (Config.mk 2 16) tOk (initState Nat)
          (inactiveInputs (fun i => i) 3)).buffer
        = (List.range (Config.mk 2 16).maxsize).map
            (fun i => (fun i => i) (3 - (Config.mk 2 16).maxsize + i + 1)) :=
  idle_buffer_bound_fifo (Config.mk 2 16) tOk (by decide) (initState Nat) ⟨[], rfl⟩
    [1, 2] 9 (by decide) (fun i => i) 3 (by decide)

/-- C7: for every active frame submitted while Idle (in any reachable idle
state), the engine inserts the frame into the buffer, snapshots the
buffer's new contents (oldest-to-newest) as the accumulator — the
triggering frame appearing once, as the newest element, with nothing
appended a second time — transitions to Recording, and the gap counter is
0 (the source never re-enters Idle with a non-zero counter, so the
activated state always has gap counter 0). -/
theorem activation_snapshot (cfg : Config) (transcribe : List α → Option String)
    (s : EngineState α) (hreach : Reachable cfg transcribe s)
    (hidle : s.recording_started = false) (x : α) :
    handle_audio_sample cfg transcribe s x true
      = ({ recording_started := true,
           samples := bufferInsert cfg.maxsize s.buffer x,
           gap_counter := 0,
           buffer := bufferInsert cfg.maxsize s.buffer x }, none)
    ∧ (bufferInsert cfg.maxsize s.buffer x).getLast? = some x := by
  have hgap : s.gap_counter = 0 :=
    reachable_idle_gap_zero cfg transcribe s hreach hidle
  constructor
  · rw [handle_idle cfg transcribe s x true hidle, manage_active cfg s x]
    obtain ⟨r, sa, g, bf⟩ := s
    dsimp only at hidle hgap ⊢
    subst hidle
    subst hgap
    rfl
  · unfold bufferInsert
    exact List.getLast?_concat _

/-- Witness for C7 at the freshly-initialized (hence reachable, idle)
engine. -/
theorem activation_snapshot_witness :
    handle_audio_sample (Config.mk 12 16) tOk (initState Nat) 5 true
      = ({ recording_started := true, samples := [5], gap_counter := 0,
           buffer := [5] }, none)
    ∧ (bufferInsert (Config.mk 12 16).maxsize (initState Nat).buffer 5).getLast?
        = some 5 :=
  activation_snapshot (Config.mk 12 16) tOk (initState Nat) ⟨[], rfl⟩ rfl 5

/-- C3: from a fresh engine, with the pause threshold computed by integer
floor division `pauseMs / frameMs` as in the source, feeding one active
frame and then `j` inactive frames produces an utterance if and only if
`j` reaches `max (pauseMs / frameMs) 1`: finalization occurs exactly on
the frame where the consecutive-inactive count reaches the threshold, one
fewer frame produces no utterance, and when the floor evaluates to 0, the
very first inactive frame after activation finalizes (the count needed is
`max threshold 1`). -/
theorem pause_timeout_exactness (frameMs bufferMs pauseMs : Nat)
    (hf : 0 < frameMs) (transcribe : List α → Option String)
    (ht : ∀ ls : List α, ∃ t, transcribe ls = some t ∧ t ≠ "")
    (a : α) (f : Nat → α) (j : Nat) :
    ((listen_and_respond (configOf frameMs bufferMs pauseMs) transcribe
        (initState α) ((a, true) :: inactiveInputs f j)).2).isSome
      = decide (max (pauseMs / frameMs) 1 ≤ j) := by
  rw [listen_cons]
  have hstep : handle_audio_sample (configOf frameMs bufferMs pauseMs) transcribe
      (initState α) a true
      = ({ recording_started := true, samples := [a], gap_counter := 0,
           buffer := [a] }, none) := by
    rw [handle_idle _ transcribe _ a true rfl, manage_active _ _ a]
    rw [show (initState α).buffer = ([] : List α) from rfl, bufferInsert_nil]
    rfl
  rw [hstep]
  dsimp only
  unfold inactiveInputs
  rw [listen_recording_inactive_isSome _ transcribe ht _ _ rfl]
  rw [decide_eq_decide]
  simp only [List.length_map, List.length_range]
  have hpf : (configOf frameMs bufferMs pauseMs).pauseFrames = pauseMs / frameMs :=
    rfl
  rw [hpf]
  rw [Nat.max_le]
  omega

/-- Witness for C3 with the spec's concrete configuration (threshold 4)
and exactly 4 inactive frames after activation. -/
theorem pause_timeout_exactness_witness :
    ((listen_and_respond (configOf 50 200 200) tOk (initState Nat)
        ((0, true) :: inactiveInputs (fun i => i) 4)).2).isSome
      = decide (max (200 / 50) 1 ≤ 4) :=
  pause_timeout_exactness 50 200 200 (by decide) tOk
    (fun _ => ⟨"ok", rfl, by decide⟩) 0 (fun i => i) 4

/-- C2 is false on the code at the boundary `k = C`: with capacity 2 and
frames 1, 2 inactive then 3 active, the triggering frame evicts frame 1
from the full buffer, so the first utterance begins with frame 2, not
frame 1 as the claim requires for `k ≤ C`. -/
theorem lookback_boundary_counterexample :
    ((listen_and_respond (Config.mk 2 1) tOk (initState Nat)
        [(1, false), (2, false), (3, true), (4, false)]).2).isSome = true
    ∧ ((listen_and_respond (Config.mk 2 1) tOk (initState Nat)
        [(1, false), (2, false), (3, true), (4, false)]).1).samples = [2, 3, 4]
    ∧ ¬ ((listen_and_respond (Config.mk 2 1) tOk (initState Nat)
        [(1, false), (2, false), (3, true), (4, false)]).1).samples.head?
          = some 1 :=
  ⟨rfl, rfl, by decide⟩

/-- C2 (amended): for `k` inactive frames then an active frame, with
positive capacity `C`, the first utterance subsequently produced begins
with frame `f ((k + 1) - C + 1)` (truncated subtraction): with `f 1` when
`k < C`, and with `f (k - C + 2)` when `k ≥ C` — the triggering frame
occupies a buffer slot, so at most `C - 1` lookback frames survive.
Since finalize does not reset, the accumulator at the moment the loop
returns the utterance still equals the emitted utterance, so its head is
the utterance's first frame. -/
theorem first_utterance_lookback_head (cfg : Config)
    (transcribe : List α → Option String) (hC : 0 < cfg.maxsize)
    (k : Nat) (f : Nat → α) (rest : List (α × Bool))
    (s' : EngineState α) (r : Result)
    (hrun : listen_and_respond cfg transcribe (initState α)
        (inactiveInputs f k ++ (f (k + 1), true) :: rest) = (s', some r)) :
    s'.samples.head? = some (f (k + 1 - cfg.maxsize + 1)) := by
  unfold inactiveInputs at hrun
  rw [listen_inactiveList_idle cfg transcribe _ _ _ rfl] at hrun
  rw [runState_inactiveList cfg transcribe _ _ rfl] at hrun
  rw [listen_cons] at hrun
  dsimp only at hrun
  rw [handle_idle cfg transcribe _ _ true rfl] at hrun
  rw [manage_active cfg _ _] at hrun
  dsimp only at hrun
  set nb := bufferInsert cfg.maxsize
      (List.foldl (bufferInsert cfg.maxsize) (initState α).buffer
        ((List.range k).map fun i => f (i + 1))) (f (k + 1)) with hnbdef
  have hnb : nb = ((List.range (k + 1)).map fun i => f (i + 1)).drop
      (k + 1 - cfg.maxsize) := by
    rw [hnbdef, show (initState α).buffer = ([] : List α) from rfl]
    rw [show bufferInsert cfg.maxsize
          (List.foldl (bufferInsert cfg.maxsize) []
            ((List.range k).map fun i => f (i + 1))) (f (k + 1))
        = List.foldl (bufferInsert cfg.maxsize) []
            (((List.range k).map fun i => f (i + 1)) ++ [f (k + 1)]) from by
      rw [List.foldl_append]
      rfl]
    rw [show ((List.range k).map fun i => f (i + 1)) ++ [f (k + 1)]
        = (List.range (k + 1)).map fun i => f (i + 1) from by
      rw [List.range_succ, List.map_append]
      rfl]
    rw [foldl_bufferInsert_drop cfg.maxsize hC _ [] (by simp)]
    simp
  have hne : nb ≠ [] := by
    rw [hnbdef]
    unfold bufferInsert
    simp
  have hhead : nb.head? = some (f (k + 1 - cfg.maxsize + 1)) := by
    rw [hnb]
    exact head?_drop_range_map (fun i => f (i + 1)) (k + 1)
      (k + 1 - cfg.maxsize) (by omega)
  have hpres := listen_recording_head cfg transcribe rest
    { recording_started := true, samples := nb, gap_counter := (initState α).gap_counter,
      buffer := nb } rfl (by exact hne)
  rw [hrun] at hpres
  rw [hpres]
  exact hhead

/-- Witness for C2 (amended) at capacity 2 with two inactive frames and
one activation frame: the produced utterance begins with frame 2. -/
theorem first_utterance_lookback_head_witness :
    ([2, 3, 4] : List Nat).head? = some 2 :=
  first_utterance_lookback_head (Config.mk 2 1) tOk (by decide) 2 (fun i => i)
    [(4, false)]
    { recording_started := true, samples := [2, 3, 4], gap_counter := 1,
      buffer := [2, 3] }
    { name := "GoldRoger", content := "ok", rtype := "text" } (by decide)

end SunMagic
